import Mathlib

/-!
Verification development for the dragzone library (dogefromage/dragzone).

The repository offers two features: a mouse-drag tracker with a deadzone
state machine (`useMouseDrag`), and a tagged drag-and-drop pair
(`useDraggable` / `useDroppable`) that serializes a JSON payload onto the
native drag event's data store under a tag-qualified key.

The draggable hook (`src/src/hooks/useDraggable.tsx`) is embedded directly
from its source.  The helpers `setTransferData` / `getTransferData`
(`src/utils/dnd`), the droppable hook and the mouse-drag tracker are not
present under `src/`; they are modelled from the specification, as marked
in their doc comments.
-/

namespace Dragzone

/-- JSON values, the serializable payloads the library carries
(`T extends \x7b\x7d` in the TypeScript signatures; `JSON.stringify`-able
data per the README). -/
inductive Json where
  | null : Json
  | bool (b : Bool) : Json
  | num (n : Int) : Json
  | str (s : String) : Json
  | arr (xs : List Json) : Json
  | obj (fields : List (String × Json)) : Json

/-- Escape one character the way `JSON.stringify` escapes string data
(quotes and backslashes; the model keeps escaping to these two). -/
def escapeChar (c : Char) : String :=
  if c = '"' then "\\\"" else if c = '\\' then "\\\\" else String.singleton c

/-- Escape a whole string for JSON output. -/
def escapeString (s : String) : String :=
  String.join (s.data.map escapeChar)

/-- A JSON string literal with its surrounding quotes. -/
def quoteString (s : String) : String :=
  "\"" ++ escapeString s ++ "\""

/-- Serialization of a JSON value, modelling `JSON.stringify`. -/
def serializeJson : Json → String
  | .null => "null"
  | .bool true => "true"
  | .bool false => "false"
  | .num n => toString n
  | .str s => quoteString s
  | .arr xs => "[" ++ String.intercalate "," (xs.attach.map (fun x => serializeJson x.1)) ++ "]"
  | .obj fs => "\x7b" ++ String.intercalate ","
      (fs.attach.map (fun kv => quoteString kv.1.1 ++ ":" ++ serializeJson kv.1.2)) ++ "\x7d"
decreasing_by
  · have h := List.sizeOf_lt_of_mem x.2
    simp only [Json.arr.sizeOf_spec]
    omega
  · obtain ⟨⟨k, v⟩, hm⟩ := kv
    have h := List.sizeOf_lt_of_mem hm
    simp only [Prod.mk.sizeOf_spec] at h
    simp only [Json.obj.sizeOf_spec]
    omega

/-- Truthiness of a JSON value under JavaScript coercion: `false`, `0`,
the empty string and `null` are falsy; arrays and objects are truthy. -/
def jsFalsy : Json → Bool
  | .null => true
  | .bool b => !b
  | .num n => n = 0
  | .str s => s = ""
  | .arr _ => false
  | .obj _ => false

/-- The native drag event's data store (`e.dataTransfer`): an association
list from string keys to string values, newest binding first. -/
abbrev DataStore := List (String × String)

/-- Write a key onto the data store, replacing any previous binding
(the semantics of `dataTransfer.setData`). -/
def DataStore.setData (store : DataStore) (key v : String) : DataStore :=
  (key, v) :: store.filter (fun kv => kv.1 ≠ key)

/-- Read a key from the data store (`dataTransfer.getData`); `none` when
the key is absent. -/
def DataStore.getData (store : DataStore) (key : String) : Option String :=
  (store.find? (fun kv => kv.1 = key)).map (fun kv => kv.2)

/-- Modelled from the spec: the tag-qualified data-store key for a channel
tag ("encoded into the native event's data store under a tag-qualified
key"); the qualifier is a fixed library prefix, so distinct tags give
distinct keys. The helper lives in `src/utils/dnd`, which is not under
`src/`. -/
def tagKey (tag : String) : String :=
  "dragzone-dnd-" ++ tag

/-- Modelled from the spec: `setTransferData` from `src/utils/dnd` (not
under `src/`) — serializes the payload and stores it on the event's data
store under the tag-qualified key. -/
def setTransferData (store : DataStore) (tag : String) (data : Json) : DataStore :=
  store.setData (tagKey tag) (serializeJson data)

/-- Modelled from the spec: `getTransferData` from `src/utils/dnd` (not
under `src/`) — decodes the payload stored under the tag-qualified key;
`none` when the event carries no data for this channel tag (a
cross-channel or foreign event).  The decoded payload is represented by
its serialized bytes, which is what the round-trip property compares
("byte-for-byte, after serialization"). -/
def getTransferData (store : DataStore) (tag : String) : Option String :=
  store.getData (tagKey tag)

/-- A drag image as passed to `dataTransfer.setDragImage`: either a fresh
empty `new Image()` or some document element. -/
inductive DragImg where
  | emptyImage : DragImg
  | element (id : Nat) : DragImg
  deriving DecidableEq

/-- The mutable parts of a `React.DragEvent` that `useDraggable` touches:
the data store and the drag image registered on it (with its offset). -/
structure DragEvent where
  store : DataStore
  dragImage : Option (DragImg × Int × Int)

/-- One observable step performed by a draggable event handler, recorded
in order: invoking the user start callback, writing the serialized
payload under a key, registering a drag image, invoking the user end
callback. -/
inductive Action where
  | callStart : Action
  | setTransfer (key v : String) : Action
  | setDragImage (img : DragImg) (x y : Int) : Action
  | callEnd : Action
  deriving DecidableEq

/-- The props accepted by `useDraggable` (`useDraggable.tsx`, lines 4-9):
a channel tag and optional start/end callbacks.  The start callback
returns `T | undefined | void`, modelled as `Option Json`. -/
structure DraggableProps where
  tag : String
  start : Option (DragEvent → Option Json)
  end_ : Option (DragEvent → Unit)

/-- The JavaScript coercion `x || \x7b\x7d` applied to the result of
`props.start?.(e)`: an absent callback or a falsy result degrades to the
empty object. -/
def orEmptyObj : Option Json → Json
  | none => Json.obj []
  | some j => if jsFalsy j then Json.obj [] else j

/-- The payload computed on drag start (`useDraggable.tsx`, line 12):

    const transfer = props.start?.(e) || \x7b\x7d; -/
def startPayload (props : DraggableProps) (e : DragEvent) : Json :=
  orEmptyObj (match props.start with
    | none => none
    | some f => f e)

/-- The draggable's `onDragStart` handler (`useDraggable.tsx`, lines
11-15), returning the updated event together with the ordered trace of
the steps it performed:

    setTransferData(e, props.tag, transfer);
    e.dataTransfer.setDragImage(new Image(), 0, 0); -/
def onDragStart (props : DraggableProps) (e : DragEvent) : DragEvent × List Action :=
  let transfer := startPayload props e
  let e1 : DragEvent :=
    { store := setTransferData e.store props.tag transfer
      dragImage := some (DragImg.emptyImage, 0, 0) }
  (e1, [Action.callStart,
        Action.setTransfer (tagKey props.tag) (serializeJson transfer),
        Action.setDragImage DragImg.emptyImage 0 0])

/-- The draggable's `onDragEnd` handler (`useDraggable.tsx`, lines 17-19):
invokes the user end callback when present and nothing else; the event is
returned untouched.

    props.end?.(e); -/
def onDragEnd (props : DraggableProps) (e : DragEvent) : DragEvent × List Action :=
  match props.end_ with
  | none => (e, [])
  | some f => let _ := f e; (e, [Action.callEnd])

/-- The handlers object returned by `useDraggable` (lines 21-27): exactly
the two event bindings plus the `draggable` marker. -/
structure DraggableHandlers where
  onDragStart : DragEvent → DragEvent × List Action
  onDragEnd : DragEvent → DragEvent × List Action
  draggable : Bool

/-- The result of `useDraggable`: an object with the single field
`handlers`. -/
structure DraggableResult where
  handlers : DraggableHandlers

/-- The `useDraggable` hook (`useDraggable.tsx`, lines 4-28). -/
def useDraggable (props : DraggableProps) : DraggableResult :=
  { handlers :=
      { onDragStart := Dragzone.onDragStart props
        onDragEnd := Dragzone.onDragEnd props
        draggable := true } }

/-- One observable callback invocation of a droppable handler, carrying
the decoded payload forwarded as the callback's second argument. -/
inductive DropAction where
  | callEnter (payload : String) : DropAction
  | callOver (payload : String) : DropAction
  | callLeave (payload : String) : DropAction
  | callDrop (payload : String) : DropAction
  deriving DecidableEq

/-- Modelled from the spec: the droppable's reactive state (`useDroppable`
is not under `src/`) — the hover counter, an "integer incremented on
enter, decremented on leave, reset to zero on drop". -/
structure DroppableState where
  counter : Int
  deriving DecidableEq

/-- The droppable's initial state: counter zero, not hovering. -/
def initDroppable : DroppableState := { counter := 0 }

/-- The exposed `isHovering` boolean: "hovering state is true while
count > 0". -/
def isHovering (st : DroppableState) : Bool :=
  decide (0 < st.counter)

/-- Modelled from the spec: the droppable's `onDragEnter` handler —
decodes the payload for the matching channel tag (a non-matching event is
a no-op), increments the hover counter and forwards the payload to the
user enter callback. -/
def onDragEnter (tag : String) (st : DroppableState) (store : DataStore) :
    DroppableState × List DropAction :=
  match getTransferData store tag with
  | none => (st, [])
  | some pl => ({ counter := st.counter + 1 }, [DropAction.callEnter pl])

/-- Modelled from the spec: the droppable's `onDragOver` handler — decodes
the payload for the matching tag (non-matching events are no-ops) and
forwards it to the user over callback; the hover counter is untouched. -/
def onDragOver (tag : String) (st : DroppableState) (store : DataStore) :
    DroppableState × List DropAction :=
  match getTransferData store tag with
  | none => (st, [])
  | some pl => (st, [DropAction.callOver pl])

/-- Modelled from the spec: the droppable's `onDragLeave` handler —
decodes the payload for the matching tag (non-matching events are
no-ops), decrements the hover counter and forwards the payload to the
user leave callback. -/
def onDragLeave (tag : String) (st : DroppableState) (store : DataStore) :
    DroppableState × List DropAction :=
  match getTransferData store tag with
  | none => (st, [])
  | some pl => ({ counter := st.counter - 1 }, [DropAction.callLeave pl])

/-- Modelled from the spec: the droppable's `onDrop` handler — decodes the
payload for the matching tag ("cross-channel drop events are silently
ignored"), resets the hover counter to zero and forwards the payload to
the user drop callback. -/
def onDrop (tag : String) (st : DroppableState) (store : DataStore) :
    DroppableState × List DropAction :=
  match getTransferData store tag with
  | none => (st, [])
  | some pl => ({ counter := 0 }, [DropAction.callDrop pl])

/-- A drag interaction event arriving at a droppable, carrying the data
store of the underlying native event. -/
inductive DropEv where
  | enter (store : DataStore) : DropEv
  | over (store : DataStore) : DropEv
  | leave (store : DataStore) : DropEv
  | drop (store : DataStore) : DropEv

/-- Dispatch one droppable event to its handler. -/
def stepDrop (tag : String) (st : DroppableState) : DropEv → DroppableState × List DropAction
  | .enter store => onDragEnter tag st store
  | .over store => onDragOver tag st store
  | .leave store => onDragLeave tag st store
  | .drop store => onDrop tag st store

/-- Run a droppable through a sequence of events, collecting the callback
trace. -/
def runDrop (tag : String) (st : DroppableState) : List DropEv → DroppableState × List DropAction
  | [] => (st, [])
  | ev :: evs =>
    let s := stepDrop tag st ev
    let r := runDrop tag s.1 evs
    (r.1, s.2 ++ r.2)

/-! ### Mouse-drag tracker, modelled from the spec (`useMouseDrag` is not
under `src/`). -/

/-- A cursor position in client coordinates. -/
structure Pos where
  x : Int
  y : Int
  deriving DecidableEq

/-- A mouse event: cursor position and the pressed button. -/
structure MouseEv where
  pos : Pos
  button : Nat
  deriving DecidableEq

/-- Modelled from the spec: the interaction descriptor's configuration —
an optional mouse-button filter and the deadzone distance (in pixels,
with a small default constant). -/
structure MouseCfg where
  mouseButton : Option Nat
  deadzone : Nat
  deriving DecidableEq

/-- Squared Euclidean distance between two cursor positions. -/
def distSq (a b : Pos) : Int :=
  (b.x - a.x) ^ 2 + (b.y - a.y) ^ 2

/-- Whether a cursor position lies strictly beyond the configured deadzone
from the recorded start position (Euclidean distance compared through its
square). -/
def beyondDeadzone (cfg : MouseCfg) (startPos cur : Pos) : Bool :=
  decide ((cfg.deadzone : Int) ^ 2 < distSq startPos cur)

/-- Whether a press passes the optional mouse-button filter. -/
def buttonOk (cfg : MouseCfg) (e : MouseEv) : Bool :=
  match cfg.mouseButton with
  | none => true
  | some b => decide (e.button = b)

/-- Modelled from the spec: the per-gesture session phase — no session,
a pending session holding the recorded start cursor, or an active session
(deadzone exceeded, start callback already run). -/
inductive Phase where
  | idle : Phase
  | pending (startPos : Pos) : Phase
  | active (startPos : Pos) : Phase
  deriving DecidableEq

/-- Whether the session phase is active. -/
def Phase.isActive : Phase → Bool
  | .active _ => true
  | _ => false

/-- The user callbacks of the interaction descriptor, as trace elements:
start, move and end invocations. -/
inductive CB where
  | startCB : CB
  | moveCB : CB
  | endCB : CB
  deriving DecidableEq

/-- A native mouse event routed to the tracker's handlers. -/
inductive MEvent where
  | down (e : MouseEv) : MEvent
  | move (e : MouseEv) : MEvent
  | up (e : MouseEv) : MEvent
  deriving DecidableEq

/-- Whether the session phase is pending. -/
def Phase.isPending : Phase → Bool
  | .pending _ => true
  | _ => false

/-- Whether a routed event is a press. -/
def MEvent.isDown : MEvent → Bool
  | .down _ => true
  | _ => false

/-- Modelled from the spec: one step of the mouse-drag state machine.
On press, records the start cursor and arms a pending session without
invoking callbacks (subject to the button filter).  On move, compares the
distance from the start position with the deadzone: the first move beyond
it invokes the start callback exactly once and transitions to active,
unless the callback requests cancellation (`cancels`), which aborts the
session without entering the active state; while active, each move
invokes the move callback.  On release, invokes the end callback if the
session was active, then clears the session. -/
def stepPhase (cfg : MouseCfg) (cancels : MouseEv → Bool) (ph : Phase) :
    MEvent → Phase × List CB
  | .down e => if buttonOk cfg e then (.pending e.pos, []) else (ph, [])
  | .move e =>
    match ph with
    | .idle => (.idle, [])
    | .pending p =>
      if beyondDeadzone cfg p e.pos then
        if cancels e then (.idle, [CB.startCB]) else (.active p, [CB.startCB])
      else (.pending p, [])
    | .active p => (.active p, [CB.moveCB])
  | .up _ =>
    match ph with
    | .active _ => (.idle, [CB.endCB])
    | _ => (.idle, [])

/-- Run the state machine over a list of events, collecting the callback
trace in invocation order. -/
def runPhase (cfg : MouseCfg) (cancels : MouseEv → Bool) (ph : Phase) :
    List MEvent → Phase × List CB
  | [] => (ph, [])
  | ev :: evs =>
    let s := stepPhase cfg cancels ph ev
    let r := runPhase cfg cancels s.1 evs
    (r.1, s.2 ++ r.2)

/-- The session phases visited while running a list of events, the initial
phase included. -/
def phasesOf (cfg : MouseCfg) (cancels : MouseEv → Bool) (ph : Phase) :
    List MEvent → List Phase
  | [] => [ph]
  | ev :: evs => ph :: phasesOf cfg cancels (stepPhase cfg cancels ph ev).1 evs

/-- The event list of one press-to-release mouse gesture: a press, a
sequence of moves, and a release. -/
def gestureEvents (press : MouseEv) (moves : List MouseEv) (release : MouseEv) :
    List MEvent :=
  MEvent.down press :: (moves.map MEvent.move ++ [MEvent.up release])

/-- Run one complete gesture from the idle state. -/
def runGesture (cfg : MouseCfg) (cancels : MouseEv → Bool)
    (press : MouseEv) (moves : List MouseEv) (release : MouseEv) : Phase × List CB :=
  runPhase cfg cancels Phase.idle (gestureEvents press moves release)

/-- The serialization of the empty object is the two-character string
holding an opening and a closing brace. -/
theorem serializeJson_empty_obj : serializeJson (Json.obj []) = "\x7b\x7d" := by
  simp [serializeJson]
  decide

/-- Distinct channel tags give distinct tag-qualified data-store keys. -/
theorem tagKey_inj {t t' : String} (h : tagKey t = tagKey t') : t = t' := by
  unfold tagKey at h
  have hd := congrArg String.data h
  simp [String.data_append] at hd
  exact String.ext hd

/-- Reading back the key just written returns the value just written. -/
theorem getData_setData_same (store : DataStore) (k v : String) :
    DataStore.getData (DataStore.setData store k v) k = some v := by
  simp [DataStore.setData, DataStore.getData]

/-- On an empty store, writing one key leaves every other key absent. -/
theorem getData_setData_nil_ne (k k' v : String) (h : k' ≠ k) :
    DataStore.getData (DataStore.setData [] k v) k' = none := by
  simp [DataStore.setData, DataStore.getData, List.find?]
  rw [decide_eq_false (fun hh => h hh.symm)]

/-! ### Sample inputs used by the witness theorems. -/

/-- A fresh drag event: empty data store, no drag image registered. -/
def freshEvent : DragEvent := { store := [], dragImage := none }

/-- Sample draggable props with no callbacks. -/
def propsNoCallbacks : DraggableProps := { tag := "t", start := none, end_ := none }

/-- Sample draggable props whose start callback returns a one-field
object. -/
def propsWithPayload : DraggableProps :=
  { tag := "t"
    start := some (fun _ => some (Json.obj [("id", Json.str "5")]))
    end_ := none }

/-! ### Claim theorems for the draggable hook. -/

/-- Claim C3: for every drag-start event, the draggable's handler performs
exactly these steps in this order: invoke the user start callback for an
optional payload, serialize that payload under the channel tag onto the
event's data store, then suppress the platform's default drag preview by
registering a fresh empty image at offset (0, 0). -/
theorem dragStart_step_order (props : DraggableProps) (e : DragEvent) :
    (onDragStart props e).2 =
      [Action.callStart,
       Action.setTransfer (tagKey props.tag) (serializeJson (startPayload props e)),
       Action.setDragImage DragImg.emptyImage 0 0] ∧
    (onDragStart props e).1.store = setTransferData e.store props.tag (startPayload props e) ∧
    (onDragStart props e).1.dragImage = some (DragImg.emptyImage, 0, 0) :=
  ⟨rfl, rfl, rfl⟩

/-- Claim C2: when the user start callback is absent or yields no usable
payload (it returns nothing, or a falsy value), `onDragStart` degrades to
the empty object: it passes `\x7b\x7d` to `setTransferData` instead of
erroring. -/
theorem dragStart_degrades_to_empty (props : DraggableProps) (e : DragEvent)
    (h : ∀ f, props.start = some f → ∀ j, f e = some j → jsFalsy j = true) :
    startPayload props e = Json.obj [] ∧
    (onDragStart props e).1.store = setTransferData e.store props.tag (Json.obj []) ∧
    Action.setTransfer (tagKey props.tag) (serializeJson (Json.obj []))
      ∈ (onDragStart props e).2 ∧
    serializeJson (Json.obj []) = "\x7b\x7d" := by
  have hpay : startPayload props e = Json.obj [] := by
    unfold startPayload
    cases hs : props.start with
    | none => rfl
    | some f =>
      show orEmptyObj (f e) = _
      cases hj : f e with
      | none => rfl
      | some j =>
        have hf := h f hs j hj
        simp [orEmptyObj, hf]
  refine ⟨hpay, ?_, ?_, serializeJson_empty_obj⟩
  · show setTransferData e.store props.tag (startPayload props e) = _
    rw [hpay]
  · show Action.setTransfer _ _ ∈ [Action.callStart,
      Action.setTransfer (tagKey props.tag) (serializeJson (startPayload props e)),
      Action.setDragImage DragImg.emptyImage 0 0]
    rw [hpay]
    simp

/-- Witness for claim C2 at concrete inputs: props without a start
callback and a fresh event. -/
theorem dragStart_degrades_to_empty_witness :
    (∀ f, propsNoCallbacks.start = some f →
      ∀ j, f freshEvent = some j → jsFalsy j = true) ∧
    (startPayload propsNoCallbacks freshEvent = Json.obj [] ∧
     (onDragStart propsNoCallbacks freshEvent).1.store
       = setTransferData freshEvent.store propsNoCallbacks.tag (Json.obj []) ∧
     Action.setTransfer (tagKey propsNoCallbacks.tag) (serializeJson (Json.obj []))
       ∈ (onDragStart propsNoCallbacks freshEvent).2 ∧
     serializeJson (Json.obj []) = "\x7b\x7d") :=
  ⟨by simp [propsNoCallbacks],
   dragStart_degrades_to_empty propsNoCallbacks freshEvent (by simp [propsNoCallbacks])⟩

/-- Claim C4: for every drag-end event, the draggable's handler invokes
the user end callback when one is provided and nothing else: the event
(and its data store) is returned untouched, and no trace step other than
the end-callback invocation occurs. -/
theorem dragEnd_only_calls_end (props : DraggableProps) (e : DragEvent) :
    (onDragEnd props e).1 = e ∧
    (∀ f, props.end_ = some f → (onDragEnd props e).2 = [Action.callEnd]) ∧
    (props.end_ = none → (onDragEnd props e).2 = []) ∧
    (∀ a ∈ (onDragEnd props e).2, a = Action.callEnd) := by
  cases h : props.end_ <;> simp [onDragEnd, h]

/-- Sample draggable props with an end callback only. -/
def propsWithEnd : DraggableProps :=
  { tag := "t", start := none, end_ := some (fun _ => ()) }

/-- Witness for claim C4 at concrete inputs: props with an end callback,
on a fresh event. -/
theorem dragEnd_only_calls_end_witness :
    (onDragEnd propsWithEnd freshEvent).1 = freshEvent ∧
    (∀ f, propsWithEnd.end_ = some f →
      (onDragEnd propsWithEnd freshEvent).2 = [Action.callEnd]) ∧
    (propsWithEnd.end_ = none → (onDragEnd propsWithEnd freshEvent).2 = []) ∧
    (∀ a ∈ (onDragEnd propsWithEnd freshEvent).2, a = Action.callEnd) :=
  dragEnd_only_calls_end propsWithEnd freshEvent

/-- Claim C5: for every props argument, `useDraggable` returns a handlers
object holding exactly the two event bindings `onDragStart` and
`onDragEnd` plus the `draggable` marker, and the marker is `true`
regardless of the props. -/
theorem useDraggable_handlers (props : DraggableProps) :
    (useDraggable props).handlers.draggable = true ∧
    (useDraggable props).handlers.onDragStart = onDragStart props ∧
    (useDraggable props).handlers.onDragEnd = onDragEnd props :=
  ⟨rfl, rfl, rfl⟩

/-- Claim C10: under the hook's typing (`T extends \x7b\x7d`, so a present
start callback returns an object or nothing), the payload handed to
`setTransferData` is always a defined object — never `undefined` — and
whenever the callback is absent or returns nothing it is the empty
object, so `onDragStart` does not fail for a missing start callback. -/
theorem dragStart_payload_always_defined (props : DraggableProps) (e : DragEvent)
    (htyped : ∀ f, props.start = some f →
      (f e = none ∨ ∃ fs, f e = some (Json.obj fs))) :
    (∃ fs, startPayload props e = Json.obj fs) ∧
    (onDragStart props e).1.store
      = setTransferData e.store props.tag (startPayload props e) := by
  refine ⟨?_, rfl⟩
  unfold startPayload
  cases hs : props.start with
  | none => exact ⟨[], rfl⟩
  | some f =>
    show ∃ fs, orEmptyObj (f e) = Json.obj fs
    rcases htyped f hs with hn | ⟨fs, hfs⟩
    · rw [hn]; exact ⟨[], rfl⟩
    · rw [hfs]; exact ⟨fs, by simp [orEmptyObj, jsFalsy]⟩

/-- Witness for claim C10 at concrete inputs: props whose start callback
returns a one-field object, on a fresh event. -/
theorem dragStart_payload_always_defined_witness :
    (∀ f, propsWithPayload.start = some f →
      (f freshEvent = none ∨ ∃ fs, f freshEvent = some (Json.obj fs))) ∧
    ((∃ fs, startPayload propsWithPayload freshEvent = Json.obj fs) ∧
     (onDragStart propsWithPayload freshEvent).1.store
       = setTransferData freshEvent.store propsWithPayload.tag
           (startPayload propsWithPayload freshEvent)) := by
  have htyped : ∀ f, propsWithPayload.start = some f →
      (f freshEvent = none ∨ ∃ fs, f freshEvent = some (Json.obj fs)) := by
    intro f hf
    refine Or.inr ⟨[("id", Json.str "5")], ?_⟩
    simp only [propsWithPayload, Option.some.injEq] at hf
    rw [← hf]
  exact ⟨htyped,
    dragStart_payload_always_defined propsWithPayload freshEvent htyped⟩

/-- Claim C1: starting a drag on a fresh event with tag `t` and a payload
object `p` from the start callback, a droppable configured with the same
tag `t` recovers the serialized payload byte-for-byte on drop, while for
any different tag `t2` no payload is ever delivered: every droppable
handler for `t2` is a no-op on this event (state unchanged, no user
callback invoked). -/
theorem payload_roundtrip_by_tag (tag tag2 : String) (fields : List (String × Json))
    (f : DragEvent → Option Json) (e : DragEvent)
    (hne : tag2 ≠ tag) (hstore : e.store = [])
    (hf : f e = some (Json.obj fields)) :
    getTransferData (onDragStart ⟨tag, some f, none⟩ e).1.store tag
      = some (serializeJson (Json.obj fields)) ∧
    (∀ st, onDrop tag st (onDragStart ⟨tag, some f, none⟩ e).1.store
      = ({ counter := 0 }, [DropAction.callDrop (serializeJson (Json.obj fields))])) ∧
    getTransferData (onDragStart ⟨tag, some f, none⟩ e).1.store tag2 = none ∧
    (∀ st, onDragEnter tag2 st (onDragStart ⟨tag, some f, none⟩ e).1.store = (st, []) ∧
           onDragOver tag2 st (onDragStart ⟨tag, some f, none⟩ e).1.store = (st, []) ∧
           onDragLeave tag2 st (onDragStart ⟨tag, some f, none⟩ e).1.store = (st, []) ∧
           onDrop tag2 st (onDragStart ⟨tag, some f, none⟩ e).1.store = (st, [])) := by
  have hpay : startPayload ⟨tag, some f, none⟩ e = Json.obj fields := by
    unfold startPayload
    show orEmptyObj (f e) = _
    rw [hf]
    simp [orEmptyObj, jsFalsy]
  have hstore1 : (onDragStart ⟨tag, some f, none⟩ e).1.store
      = DataStore.setData [] (tagKey tag) (serializeJson (Json.obj fields)) := by
    show setTransferData e.store tag (startPayload ⟨tag, some f, none⟩ e) = _
    rw [hstore, hpay]
    rfl
  have hkey : tagKey tag2 ≠ tagKey tag := fun hh => hne (tagKey_inj hh)
  have hsame : getTransferData (onDragStart ⟨tag, some f, none⟩ e).1.store tag
      = some (serializeJson (Json.obj fields)) := by
    rw [hstore1]
    exact getData_setData_same _ _ _
  have hother : getTransferData (onDragStart ⟨tag, some f, none⟩ e).1.store tag2 = none := by
    rw [hstore1]
    exact getData_setData_nil_ne _ _ _ hkey
  refine ⟨hsame, ?_, hother, ?_⟩
  · intro st
    simp [onDrop, hsame]
  · intro st
    exact ⟨by simp [onDragEnter, hother], by simp [onDragOver, hother],
           by simp [onDragLeave, hother], by simp [onDrop, hother]⟩

/-- Witness for claim C1 at concrete inputs: tags "a" and "b", a one-field
payload object, a fresh event. -/
theorem payload_roundtrip_by_tag_witness :
    (("b" : String) ≠ "a" ∧ freshEvent.store = [] ∧
     (fun (_ : DragEvent) => some (Json.obj [("id", Json.str "5")])) freshEvent
       = some (Json.obj [("id", Json.str "5")])) ∧
    (getTransferData
        (onDragStart ⟨"a", some (fun _ => some (Json.obj [("id", Json.str "5")])), none⟩
          freshEvent).1.store "a"
      = some (serializeJson (Json.obj [("id", Json.str "5")]))) := by
  have h := payload_roundtrip_by_tag "a" "b" [("id", Json.str "5")]
    (fun _ => some (Json.obj [("id", Json.str "5")])) freshEvent
    (by decide) rfl rfl
  exact ⟨⟨by decide, rfl, rfl⟩, h.1⟩

/-! ### The droppable hover counter. -/

/-- Running a droppable over an appended event list is running the two
parts in sequence. -/
theorem runDrop_append (tag : String) (st : DroppableState)
    (evs1 evs2 : List DropEv) :
    (runDrop tag st (evs1 ++ evs2)).1 = (runDrop tag (runDrop tag st evs1).1 evs2).1 := by
  induction evs1 generalizing st with
  | nil => simp [runDrop]
  | cons ev evs ih => simp [runDrop, ih]

/-- N matching enter events raise the hover counter by N. -/
theorem runDrop_enter_replicate (tag : String) (store : DataStore)
    (hmatch : (getTransferData store tag).isSome = true)
    (st : DroppableState) (N : Nat) :
    (runDrop tag st (List.replicate N (DropEv.enter store))).1.counter
      = st.counter + N := by
  obtain ⟨pl, hpl⟩ := Option.isSome_iff_exists.mp hmatch
  induction N generalizing st with
  | zero => simp [runDrop]
  | succ n ih =>
    rw [List.replicate_succ]
    simp [runDrop, stepDrop, onDragEnter, hpl, ih]
    ring

/-- N matching leave events lower the hover counter by N. -/
theorem runDrop_leave_replicate (tag : String) (store : DataStore)
    (hmatch : (getTransferData store tag).isSome = true)
    (st : DroppableState) (N : Nat) :
    (runDrop tag st (List.replicate N (DropEv.leave store))).1.counter
      = st.counter - N := by
  obtain ⟨pl, hpl⟩ := Option.isSome_iff_exists.mp hmatch
  induction N generalizing st with
  | zero => simp [runDrop]
  | succ n ih =>
    rw [List.replicate_succ]
    simp [runDrop, stepDrop, onDragLeave, hpl, ih]
    ring

/-- Claim C9: for events carrying this channel's payload, enter increments
and leave decrements the droppable's hover counter, drop resets it to
zero, and the exposed `isHovering` equals `counter > 0` after every
event; consequently N enters followed by N leaves end with
`isHovering = false`, and a drop always ends with `isHovering = false`. -/
theorem hover_counter_behaviour (tag : String) (store : DataStore)
    (hmatch : (getTransferData store tag).isSome = true) :
    (∀ st, (onDragEnter tag st store).1.counter = st.counter + 1) ∧
    (∀ st, (onDragLeave tag st store).1.counter = st.counter - 1) ∧
    (∀ st, (onDrop tag st store).1.counter = 0) ∧
    (∀ st, isHovering st = decide (0 < st.counter)) ∧
    (∀ N : Nat, isHovering (runDrop tag initDroppable
        (List.replicate N (DropEv.enter store)
          ++ List.replicate N (DropEv.leave store))).1 = false) ∧
    (∀ st, isHovering (onDrop tag st store).1 = false) := by
  obtain ⟨pl, hpl⟩ := Option.isSome_iff_exists.mp hmatch
  refine ⟨fun st => by simp [onDragEnter, hpl],
          fun st => by simp [onDragLeave, hpl],
          fun st => by simp [onDrop, hpl],
          fun st => rfl, ?_, fun st => by simp [onDrop, hpl, isHovering]⟩
  intro N
  have hcount : (runDrop tag initDroppable
      (List.replicate N (DropEv.enter store)
        ++ List.replicate N (DropEv.leave store))).1.counter = 0 := by
    rw [runDrop_append]
    rw [runDrop_leave_replicate tag store hmatch]
    rw [runDrop_enter_replicate tag store hmatch]
    simp [initDroppable]
  simp [isHovering, hcount]

/-- Witness for claim C9 at a concrete input: a store holding a payload
for tag "t". -/
theorem hover_counter_behaviour_witness :
    ((getTransferData [(tagKey "t", "p")] "t").isSome = true) ∧
    (∀ st, (onDragEnter "t" st [(tagKey "t", "p")]).1.counter = st.counter + 1) := by
  have hm : (getTransferData [(tagKey "t", "p")] "t").isSome = true := by decide
  exact ⟨hm, (hover_counter_behaviour "t" [(tagKey "t", "p")] hm).1⟩

/-! ### The mouse-drag deadzone state machine. -/

/-- Running the tracker over an appended event list is running the two
parts in sequence, concatenating the traces. -/
theorem runPhase_append (cfg : MouseCfg) (cancels : MouseEv → Bool) (ph : Phase)
    (evs1 evs2 : List MEvent) :
    runPhase cfg cancels ph (evs1 ++ evs2)
      = ((runPhase cfg cancels (runPhase cfg cancels ph evs1).1 evs2).1,
         (runPhase cfg cancels ph evs1).2
           ++ (runPhase cfg cancels (runPhase cfg cancels ph evs1).1 evs2).2) := by
  induction evs1 generalizing ph with
  | nil => simp [runPhase]
  | cons ev evs ih => simp [runPhase, ih]

/-- From the idle phase, move and release events neither change the phase
nor invoke any callback. -/
theorem runPhase_idle_nodown (cfg : MouseCfg) (cancels : MouseEv → Bool)
    (evs : List MEvent) (h : ∀ ev ∈ evs, MEvent.isDown ev = false) :
    runPhase cfg cancels Phase.idle evs = (Phase.idle, []) := by
  induction evs with
  | nil => rfl
  | cons ev evs ih =>
    have hrest : ∀ ev ∈ evs, MEvent.isDown ev = false :=
      fun ev hm => h ev (List.mem_cons_of_mem _ hm)
    cases ev with
    | down e =>
      have := h _ (List.mem_cons_self _ _)
      simp [MEvent.isDown] at this
    | move e => simp [runPhase, stepPhase, ih hrest]
    | up e => simp [runPhase, stepPhase, ih hrest]

/-- From a pending session, moves that all stay within the deadzone keep
the session pending and invoke no callback. -/
theorem runPhase_pending_below (cfg : MouseCfg) (cancels : MouseEv → Bool)
    (p : Pos) (moves : List MouseEv)
    (h : ∀ m ∈ moves, beyondDeadzone cfg p m.pos = false) :
    runPhase cfg cancels (Phase.pending p) (moves.map MEvent.move)
      = (Phase.pending p, []) := by
  induction moves with
  | nil => rfl
  | cons m moves ih =>
    have hm := h m (List.mem_cons_self _ _)
    have hrest : ∀ m ∈ moves, beyondDeadzone cfg p m.pos = false :=
      fun m hmm => h m (List.mem_cons_of_mem _ hmm)
    simp [runPhase, stepPhase, hm, ih hrest]

/-- Once the session is past pending, no later move or release event can
invoke the start callback (only a new press could re-arm a session). -/
theorem runPhase_no_start (cfg : MouseCfg) (cancels : MouseEv → Bool)
    (ph : Phase) (evs : List MEvent) (hph : ph.isPending = false)
    (h : ∀ ev ∈ evs, MEvent.isDown ev = false) :
    CB.startCB ∉ (runPhase cfg cancels ph evs).2 := by
  induction evs generalizing ph with
  | nil => simp [runPhase]
  | cons ev evs ih =>
    have hrest : ∀ ev ∈ evs, MEvent.isDown ev = false :=
      fun ev hm => h ev (List.mem_cons_of_mem _ hm)
    cases ev with
    | down e =>
      have := h _ (List.mem_cons_self _ _)
      simp [MEvent.isDown] at this
    | move e =>
      cases ph with
      | idle =>
        simp only [runPhase, stepPhase]
        simpa using ih Phase.idle rfl hrest
      | pending p => simp [Phase.isPending] at hph
      | active p =>
        simp only [runPhase, stepPhase]
        have := ih (Phase.active p) rfl hrest
        simp [this]
    | up e =>
      cases ph with
      | idle =>
        simp only [runPhase, stepPhase]
        simpa using ih Phase.idle rfl hrest
      | pending p => simp [Phase.isPending] at hph
      | active p =>
        simp only [runPhase, stepPhase]
        have := ih Phase.idle rfl hrest
        simp [this]

/-- From a pending session, if some move goes beyond the deadzone then the
callback trace of the whole remaining run is the start callback followed
by callbacks among which the start callback never occurs again. -/
theorem runPhase_pending_exceed (cfg : MouseCfg) (cancels : MouseEv → Bool)
    (p : Pos) (moves : List MouseEv) (rest : List MEvent)
    (hrest : ∀ ev ∈ rest, MEvent.isDown ev = false)
    (hex : ∃ m ∈ moves, beyondDeadzone cfg p m.pos = true) :
    ∃ tail, (runPhase cfg cancels (Phase.pending p) (moves.map MEvent.move ++ rest)).2
      = CB.startCB :: tail ∧ CB.startCB ∉ tail := by
  induction moves with
  | nil => simp at hex
  | cons m moves ih =>
    have hnd : ∀ ev ∈ moves.map MEvent.move ++ rest, MEvent.isDown ev = false := by
      intro ev hm
      rcases List.mem_append.mp hm with hmm | hmm
      · rcases List.mem_map.mp hmm with ⟨m', _, rfl⟩
        rfl
      · exact hrest ev hmm
    by_cases hm : beyondDeadzone cfg p m.pos = true
    · by_cases hc : cancels m = true
      · refine ⟨(runPhase cfg cancels Phase.idle (moves.map MEvent.move ++ rest)).2, ?_, ?_⟩
        · simp [runPhase, stepPhase, hm, hc]
        · exact runPhase_no_start cfg cancels Phase.idle _ rfl hnd
      · have hc' : cancels m = false := by simpa using hc
        refine ⟨(runPhase cfg cancels (Phase.active p) (moves.map MEvent.move ++ rest)).2, ?_, ?_⟩
        · simp [runPhase, stepPhase, hm, hc']
        · exact runPhase_no_start cfg cancels (Phase.active p) _ rfl hnd
    · have hm' : beyondDeadzone cfg p m.pos = false := by simpa using hm
      have hex' : ∃ m0 ∈ moves, beyondDeadzone cfg p m0.pos = true := by
        rcases hex with ⟨m0, hm0, hb0⟩
        rcases List.mem_cons.mp hm0 with heq | hmem
        · rw [heq, hm'] at hb0; exact absurd hb0 (by simp)
        · exact ⟨m0, hmem, hb0⟩
      obtain ⟨tail, htr, hns⟩ := ih hex'
      refine ⟨tail, ?_, hns⟩
      simp [runPhase, stepPhase, hm', htr]

/-- Claim C6: a gesture whose cursor never strays beyond the deadzone from
the press position invokes none of the start, move or end callbacks. -/
theorem below_deadzone_no_callbacks (cfg : MouseCfg) (cancels : MouseEv → Bool)
    (press : MouseEv) (moves : List MouseEv) (release : MouseEv)
    (h : ∀ m ∈ moves, beyondDeadzone cfg press.pos m.pos = false) :
    (runGesture cfg cancels press moves release).2 = [] := by
  have hnd : ∀ ev ∈ moves.map MEvent.move ++ [MEvent.up release],
      MEvent.isDown ev = false := by
    intro ev hm
    rcases List.mem_append.mp hm with hmm | hmm
    · rcases List.mem_map.mp hmm with ⟨m', _, rfl⟩
      rfl
    · rcases List.mem_singleton.mp hmm with rfl
      rfl
  unfold runGesture gestureEvents
  cases hb : buttonOk cfg press with
  | false =>
    simp [runPhase, stepPhase, hb, runPhase_idle_nodown cfg cancels _ hnd]
  | true =>
    have h1 : runPhase cfg cancels (Phase.pending press.pos)
        (moves.map MEvent.move ++ [MEvent.up release]) = (Phase.idle, []) := by
      rw [runPhase_append]
      rw [runPhase_pending_below cfg cancels press.pos moves h]
      simp [runPhase, stepPhase]
    simp [runPhase, stepPhase, hb, h1]

/-- Witness for claim C6 at a concrete gesture: deadzone 5, one move a
single pixel away, release at the same spot. -/
theorem below_deadzone_no_callbacks_witness :
    (∀ m ∈ [({ pos := { x := 1, y := 1 }, button := 0 } : MouseEv)],
      beyondDeadzone { mouseButton := none, deadzone := 5 }
        ({ pos := { x := 0, y := 0 }, button := 0 } : MouseEv).pos m.pos = false) ∧
    (runGesture { mouseButton := none, deadzone := 5 } (fun _ => false)
      { pos := { x := 0, y := 0 }, button := 0 }
      [{ pos := { x := 1, y := 1 }, button := 0 }]
      { pos := { x := 1, y := 1 }, button := 0 }).2 = [] :=
  ⟨by decide,
   below_deadzone_no_callbacks { mouseButton := none, deadzone := 5 } (fun _ => false)
     { pos := { x := 0, y := 0 }, button := 0 }
     [{ pos := { x := 1, y := 1 }, button := 0 }]
     { pos := { x := 1, y := 1 }, button := 0 } (by decide)⟩

/-- Claim C7: in a gesture whose press arms a session (the button filter
accepts it) and whose cursor goes beyond the deadzone, the start callback
is invoked exactly once, and it is the very first callback of the
gesture — in particular it precedes every invocation of the move
callback. -/
theorem exceed_starts_exactly_once (cfg : MouseCfg) (cancels : MouseEv → Bool)
    (press : MouseEv) (moves : List MouseEv) (release : MouseEv)
    (harm : buttonOk cfg press = true)
    (hex : ∃ m ∈ moves, beyondDeadzone cfg press.pos m.pos = true) :
    ∃ tail, (runGesture cfg cancels press moves release).2 = CB.startCB :: tail ∧
      CB.startCB ∉ tail ∧
      (runGesture cfg cancels press moves release).2.count CB.startCB = 1 := by
  have hnd : ∀ ev ∈ [MEvent.up release], MEvent.isDown ev = false := by
    intro ev hm
    rcases List.mem_singleton.mp hm with rfl
    rfl
  obtain ⟨tail, htr, hns⟩ :=
    runPhase_pending_exceed cfg cancels press.pos moves [MEvent.up release] hnd hex
  have hrun : (runGesture cfg cancels press moves release).2 = CB.startCB :: tail := by
    unfold runGesture gestureEvents
    simp [runPhase, stepPhase, harm, htr]
  refine ⟨tail, hrun, hns, ?_⟩
  rw [hrun]
  simp [List.count_cons, List.count_eq_zero.mpr hns]

/-- Witness for claim C7 at a concrete gesture: deadzone 5, one move ten
pixels away. -/
theorem exceed_starts_exactly_once_witness :
    (buttonOk { mouseButton := none, deadzone := 5 }
      ({ pos := { x := 0, y := 0 }, button := 0 } : MouseEv) = true ∧
     ∃ m ∈ [({ pos := { x := 10, y := 10 }, button := 0 } : MouseEv)],
       beyondDeadzone { mouseButton := none, deadzone := 5 }
         ({ pos := { x := 0, y := 0 }, button := 0 } : MouseEv).pos m.pos = true) ∧
    (∃ tail, (runGesture { mouseButton := none, deadzone := 5 } (fun _ => false)
        { pos := { x := 0, y := 0 }, button := 0 }
        [{ pos := { x := 10, y := 10 }, button := 0 }]
        { pos := { x := 10, y := 10 }, button := 0 }).2 = CB.startCB :: tail ∧
      CB.startCB ∉ tail ∧
      (runGesture { mouseButton := none, deadzone := 5 } (fun _ => false)
        { pos := { x := 0, y := 0 }, button := 0 }
        [{ pos := { x := 10, y := 10 }, button := 0 }]
        { pos := { x := 10, y := 10 }, button := 0 }).2.count CB.startCB = 1) :=
  ⟨⟨by decide, by decide⟩,
   exceed_starts_exactly_once { mouseButton := none, deadzone := 5 } (fun _ => false)
     { pos := { x := 0, y := 0 }, button := 0 }
     [{ pos := { x := 10, y := 10 }, button := 0 }]
     { pos := { x := 10, y := 10 }, button := 0 } (by decide) (by decide)⟩

/-- One step of the state machine under an always-cancelling start
callback: a non-active phase stays non-active and the step can invoke
neither the move nor the end callback. -/
theorem stepPhase_cancel_nonactive (cfg : MouseCfg) (cancels : MouseEv → Bool)
    (hcancel : ∀ e, cancels e = true) (ph : Phase) (ev : MEvent)
    (h : ph.isActive = false) :
    (stepPhase cfg cancels ph ev).1.isActive = false ∧
    CB.moveCB ∉ (stepPhase cfg cancels ph ev).2 ∧
    CB.endCB ∉ (stepPhase cfg cancels ph ev).2 := by
  cases ev with
  | down e =>
    cases hb : buttonOk cfg e with
    | false =>
      refine ⟨?_, by simp [stepPhase, hb], by simp [stepPhase, hb]⟩
      simpa [stepPhase, hb] using h
    | true => simp [stepPhase, hb, Phase.isActive]
  | move e =>
    cases ph with
    | idle => simp [stepPhase, Phase.isActive]
    | pending p =>
      cases hbd : beyondDeadzone cfg p e.pos <;>
        simp [stepPhase, hbd, hcancel e, Phase.isActive]
    | active p => simp [Phase.isActive] at h
  | up e =>
    cases ph with
    | idle => simp [stepPhase, Phase.isActive]
    | pending p => simp [stepPhase, Phase.isActive]
    | active p => simp [Phase.isActive] at h

/-- Under an always-cancelling start callback, every phase the machine
visits from a non-active phase is non-active. -/
theorem phasesOf_cancel_nonactive (cfg : MouseCfg) (cancels : MouseEv → Bool)
    (hcancel : ∀ e, cancels e = true) (evs : List MEvent) (ph : Phase)
    (h : ph.isActive = false) :
    (phasesOf cfg cancels ph evs).all (fun q => !q.isActive) = true := by
  induction evs generalizing ph with
  | nil => simp [phasesOf, h]
  | cons ev evs ih =>
    have hstep := stepPhase_cancel_nonactive cfg cancels hcancel ph ev h
    simp [phasesOf, h, ih _ hstep.1]

/-- Under an always-cancelling start callback, a run from a non-active
phase invokes neither the move nor the end callback. -/
theorem runPhase_cancel_no_move_end (cfg : MouseCfg) (cancels : MouseEv → Bool)
    (hcancel : ∀ e, cancels e = true) (evs : List MEvent) (ph : Phase)
    (h : ph.isActive = false) :
    CB.moveCB ∉ (runPhase cfg cancels ph evs).2 ∧
    CB.endCB ∉ (runPhase cfg cancels ph evs).2 := by
  induction evs generalizing ph with
  | nil => simp [runPhase]
  | cons ev evs ih =>
    have hstep := stepPhase_cancel_nonactive cfg cancels hcancel ph ev h
    have hrest := ih _ hstep.1
    simp only [runPhase, List.mem_append]
    exact ⟨fun hc => hc.elim hstep.2.1 hrest.1, fun hc => hc.elim hstep.2.2 hrest.2⟩

/-- Claim C8: when the start callback always requests cancellation, the
session never enters the active state at any point of the gesture, and
the move and end callbacks are never invoked. -/
theorem cancel_aborts_session (cfg : MouseCfg) (cancels : MouseEv → Bool)
    (press : MouseEv) (moves : List MouseEv) (release : MouseEv)
    (hcancel : ∀ e, cancels e = true) :
    (phasesOf cfg cancels Phase.idle (gestureEvents press moves release)).all
        (fun q => !q.isActive) = true ∧
    CB.moveCB ∉ (runGesture cfg cancels press moves release).2 ∧
    CB.endCB ∉ (runGesture cfg cancels press moves release).2 :=
  ⟨phasesOf_cancel_nonactive cfg cancels hcancel _ Phase.idle rfl,
   (runPhase_cancel_no_move_end cfg cancels hcancel _ Phase.idle rfl).1,
   (runPhase_cancel_no_move_end cfg cancels hcancel _ Phase.idle rfl).2⟩

/-- Witness for claim C8 at a concrete gesture with an always-cancelling
start callback and a move beyond the deadzone. -/
theorem cancel_aborts_session_witness :
    (∀ e : MouseEv, (fun _ : MouseEv => true) e = true) ∧
    ((phasesOf { mouseButton := none, deadzone := 5 } (fun _ => true) Phase.idle
        (gestureEvents { pos := { x := 0, y := 0 }, button := 0 }
          [{ pos := { x := 10, y := 10 }, button := 0 }]
          { pos := { x := 10, y := 10 }, button := 0 })).all
        (fun q => !q.isActive) = true ∧
     CB.moveCB ∉ (runGesture { mouseButton := none, deadzone := 5 } (fun _ => true)
        { pos := { x := 0, y := 0 }, button := 0 }
        [{ pos := { x := 10, y := 10 }, button := 0 }]
        { pos := { x := 10, y := 10 }, button := 0 }).2 ∧
     CB.endCB ∉ (runGesture { mouseButton := none, deadzone := 5 } (fun _ => true)
        { pos := { x := 0, y := 0 }, button := 0 }
        [{ pos := { x := 10, y := 10 }, button := 0 }]
        { pos := { x := 10, y := 10 }, button := 0 }).2) :=
  ⟨fun _ => rfl,
   cancel_aborts_session { mouseButton := none, deadzone := 5 } (fun _ => true)
     { pos := { x := 0, y := 0 }, button := 0 }
     [{ pos := { x := 10, y := 10 }, button := 0 }]
     { pos := { x := 10, y := 10 }, button := 0 } (fun _ => rfl)⟩

end Dragzone
